import Mathlib

/-!
Verification development for the `ffmpeg-ffprobe-static` installer
(`src/index.js` and `src/install.js`).

The installer is a straight-line node script.  We embed it shallowly:

* the static support matrix and path nulling of `src/index.js`;
* the platform-name resolvers `getOriginalPlatformName` /
  `getFFmpegCustomPlatformName` of `src/install.js` (a fatal
  `exitOnError` is modelled as `none`);
* the download-plan construction (URLs, distribution source, archive
  format) of `src/install.js` lines 270-332;
* `normalizeS3Url` (lines 57-65) over a structural view of a URL
  (hostname, the part before the query, and the decoded query-parameter
  list);
* `extractTarXz` (lines 146-184) as a function of the observable process
  events (spawn errors and exit codes);
* `extractZip` (lines 187-221) as a recursion over the archive's entry
  list together with a per-entry I/O outcome oracle;
* the whole promise chain of `src/install.js` as a deterministic trace
  of events (`runInstaller`), driven by a configuration that fixes the
  environment (platform, arch, release tag, base URL), the pre-existing
  files, and the success or failure of each I/O step.
-/

namespace FFInstall

/-- Support matrix of `src/index.js` lines 6-11: operating system to the
list of supported CPU architectures. -/
def binaries : List (String × List String) :=
  [("darwin", ["x64", "arm64"]),
   ("freebsd", ["x64"]),
   ("linux", ["x64", "ia32", "arm64", "arm"]),
   ("win32", ["x64", "ia32"])]

/-- Lookup `binaries[platform]` (the object has a null prototype, so a
missing key yields undefined, here `none`). -/
def binariesLookup (platform : String) : Option (List String) :=
  (binaries.find? (fun e => e.1 = platform)).map (fun e => e.2)

/-- src/index.js lines 28-34: the condition under which the exported
paths are NOT nulled, i.e. `binaries[platform]` exists and lists `arch`. -/
def archSupported (platform arch : String) : Bool :=
  match binariesLookup platform with
  | none => false
  | some l => l.contains arch

/-- Resolver `getOriginalPlatformName` of src/install.js lines 279-290.  The
`default` switch case calls `exitOnError` (fatal `process.exit(1)`),
modelled as `none`. -/
def getOriginalPlatformName (platform arch : String) : Option String :=
  match platform with
  | "win32" => some (if arch = "arm64" then "win-arm64" else "win32-x64")
  | "darwin" => some (if arch = "arm64" then "darwin-arm64" else "darwin-x64")
  | "linux" => some (if arch = "arm64" then "linux-arm64" else "linux-x64")
  | _ => none

/-- Resolver `getFFmpegCustomPlatformName` of src/install.js lines 293-302,
naming for the BnqDzj builds; again `none` models the fatal default. -/
def getFFmpegCustomPlatformName (platform arch : String) : Option String :=
  match platform with
  | "win32" => some (if arch = "arm64" then "winarm64" else "win64")
  | "linux" => some (if arch = "arm64" then "linuxarm64" else "linux64")
  | _ => none

/-- Base URL of the secondary (BnqDzj) distribution source,
src/install.js line 319. -/
def ffmpegCustomBaseUrl : String :=
  "https://github.com/BnqDzj/FFmpeg-Builds-nonfree/releases/download/latest"

/-- Default release tag (src/install.js line 274), used when the
`FFMPEG_BINARY_RELEASE` environment variable is absent. -/
def defaultRelease : String := "b4.4.0-rc.11"

/-- Default primary-source base URL (src/install.js line 276). -/
def defaultBaseUrl : String :=
  "https://github.com/descriptinc/ffmpeg-ffprobe-static/releases/download/"

/-- Which distribution source a download resolves to. -/
inductive Source
  | original
  | custom
deriving DecidableEq, Repr

/-- The resolved download plan of a run: URLs, sources and archive
formats for both binaries, as constructed by src/install.js
lines 270-332.  `ffmpegArchive = none` means a directly-executable
payload (no extraction); `some ext` means an archive of that format
downloaded into the temp dir and extracted.  `ffmpegDirectToFinalPath`
records whether the ffmpeg download destination is the final binary
path (true on the original-source branch) or a temp-dir archive path. -/
structure Plan where
  originalPlatformName : String
  ffmpegUrl : String
  ffmpegSource : Source
  ffmpegArchive : Option String
  ffmpegDirectToFinalPath : Bool
  ffprobeUrl : String
  ffprobeSource : Source
  ffprobeArchive : Option String
deriving DecidableEq, Repr

/-- Download-plan construction, following src/install.js lines 279-332:
`getOriginalPlatformName` runs first (line 304, fatal on unknown
platforms); darwin takes the original source with no archive; every
other surviving platform takes the BnqDzj source with a zip (win32) or
tar.xz (otherwise, i.e. linux) archive; ffprobe always takes the
original source (line 331).  `none` models the fatal `exitOnError`. -/
def buildPlan (platform arch release baseUrl : String) : Option Plan :=
  match getOriginalPlatformName platform arch with
  | none => none
  | some name =>
    let ffprobeUrl := baseUrl ++ release ++ "/ffprobe-" ++ name
    if platform = "darwin" then
      some
        { originalPlatformName := name
          ffmpegUrl := baseUrl ++ release ++ "/ffmpeg-" ++ name
          ffmpegSource := Source.original
          ffmpegArchive := none
          ffmpegDirectToFinalPath := true
          ffprobeUrl := ffprobeUrl
          ffprobeSource := Source.original
          ffprobeArchive := none }
    else
      match getFFmpegCustomPlatformName platform arch with
      | none => none
      | some customName =>
        let ext := if platform = "win32" then "zip" else "tar.xz"
        let fileName := "ffmpeg-master-latest-" ++ customName ++ "-nonfree." ++ ext
        some
          { originalPlatformName := name
            ffmpegUrl := ffmpegCustomBaseUrl ++ "/" ++ fileName
            ffmpegSource := Source.custom
            ffmpegArchive := some ext
            ffmpegDirectToFinalPath := false
            ffprobeUrl := ffprobeUrl
            ffprobeSource := Source.original
            ffprobeArchive := none }

/-- Structural view of a URL as the WHATWG `URL` object exposes it to
`normalizeS3Url`: the hostname, everything outside the query string
(scheme, host, path — kept opaque as `base`), and the decoded query
parameters in order (`url.searchParams.entries()`). -/
structure SUrl where
  hostname : String
  base : String
  params : List (String × String)
deriving DecidableEq, Repr

/-- src/install.js line 59: `url.hostname.slice(-17) !== '.s3.amazonaws.com'`
(negated).  `slice(-17)` takes the last 17 characters, or the whole
string when it is shorter. -/
def isS3Host (h : String) : Bool :=
  h.drop (h.length - 17) = ".s3.amazonaws.com"

/-- ASCII lower-casing of one character (the prefix compared against,
`x-amz-`, is pure ASCII, so this is all `toLowerCase` contributes
here). -/
def lowerAscii (c : Char) : Char :=
  if 'A' ≤ c ∧ c ≤ 'Z' then Char.ofNat (c.toNat + 32) else c

/-- src/install.js line 61: `key.slice(0, 6).toLowerCase() !== 'x-amz-'`
(negated): case-insensitive test for the signed-request key family. -/
def isAmzKey (k : String) : Bool :=
  (k.data.take 6).map lowerAscii = "x-amz-".data

/-- One step of the accumulation on src/install.js line 62: the object
spread `{...query, [key]: val}` keeps an existing key at its original
position but overwrites its value; a new key is appended. -/
def insertParam (acc : List (String × String)) (p : String × String) :
    List (String × String) :=
  if acc.any (fun q => q.1 = p.1) then
    acc.map (fun q => if q.1 = p.1 then (q.1, p.2) else q)
  else acc ++ [p]

/-- The `reduce` on src/install.js line 62 builds a plain object from
the filtered entry list: a key keeps the position of its first
occurrence and the value of its last occurrence (duplicate keys
collapse).  Property enumeration order is modelled separately by
`jsObjectOrder`. -/
def collapseParams (ps : List (String × String)) : List (String × String) :=
  ps.foldl insertParam []

/-- Decimal digits to a number (for comparing array-index keys). -/
def decDigitsToNat (cs : List Char) : Nat :=
  cs.foldl (fun n c => 10 * n + (c.toNat - 48)) 0

/-- Whether a property key is an ECMAScript array index: the canonical
decimal string (digits only, no leading zero except "0" itself) of an
integer below 2^32 - 1.  Such keys enumerate before all other string
keys, in ascending numeric order. -/
def isArrayIndex (k : String) : Bool :=
  match k.data with
  | [] => false
  | c :: cs =>
    (c :: cs).all (fun d => d.isDigit) &&
    (c != '0' || cs.isEmpty) &&
    decide (decDigitsToNat (c :: cs) < 4294967295)

/-- Insert one parameter into a list sorted by numeric key value. -/
def insertByIndex (p : String × String) :
    List (String × String) → List (String × String)
  | [] => [p]
  | q :: qs =>
    if decDigitsToNat p.1.data < decDigitsToNat q.1.data then p :: q :: qs
    else q :: insertByIndex p qs

/-- Insertion sort by numeric key value (for the array-index keys). -/
def sortByNumericKey : List (String × String) → List (String × String)
  | [] => []
  | p :: ps => insertByIndex p (sortByNumericKey ps)

/-- ECMAScript own-property enumeration order of a plain object, as
`Object.keys` (iterated by `querystring.encode`) reports it: array-index
keys first in ascending numeric order, then the remaining string keys in
property-creation (first-occurrence) order. -/
def jsObjectOrder (ps : List (String × String)) : List (String × String) :=
  sortByNumericKey (ps.filter (fun q => isArrayIndex q.1)) ++
    ps.filter (fun q => !(isArrayIndex q.1))

/-- Function `normalizeS3Url` of src/install.js lines 57-65 on the structural
URL view: a URL whose hostname does not end in `.s3.amazonaws.com` is
returned unchanged; otherwise the query is rebuilt from the non-`x-amz-`
parameters via the object-accumulating reduce, and serialized in the
object's own-property enumeration order (array-index keys numerically
first, then the rest in first-occurrence order). -/
def normalizeS3Url (u : SUrl) : SUrl :=
  if isS3Host u.hostname = false then u
  else { u with params :=
    jsObjectOrder (collapseParams (u.params.filter (fun p => !(isAmzKey p.1)))) }

/-- Observable behaviour of the two processes spawned by `extractTarXz`
(src/install.js lines 146-184): whether each`spawn` emitted an `error`
event, and each process's exit code. -/
structure TarXzProcs where
  xzSpawnError : Option String
  tarSpawnError : Option String
  xzExitCode : Int
  tarExitCode : Int
deriving DecidableEq, Repr

/-- Result of `extractTarXz` (src/install.js lines 146-184).  The promise
settles from exactly three callbacks: `xz.on('error', reject)`,
`tar.on('error', reject)`, and `tar.on('close', code)` which rejects on
a nonzero code naming the tar process and resolves otherwise.  The xz
exit code is never observed by any handler, so it cannot influence the
result.  (When several callbacks fire, the first settles the promise;
the model gives spawn errors priority, which raced events the claims do
not depend on.) -/
def extractTarXz (p : TarXzProcs) : Except String Unit :=
  match p.xzSpawnError with
  | some e => Except.error e
  | none =>
    match p.tarSpawnError with
    | some e => Except.error e
    | none =>
      if p.tarExitCode ≠ 0 then
        Except.error ("tar process exited with code " ++ toString p.tarExitCode)
      else Except.ok ()

/-- Simplified `path.join` for the POSIX-style '/'-separated arguments
the installer passes (no normalization of duplicate separators needed
at the call sites modelled). -/
def pathJoin (a b : String) : String :=
  if b = "" then a else if a = "" then b else a ++ "/" ++ b

/-- Split a character list at every occurrence of `sep`
(JS `String.prototype.split` semantics: `"" → [""]`, separators at the
ends produce empty groups). -/
def splitOnChar (sep : Char) (cs : List Char) : List (List Char) :=
  cs.foldr
    (fun c acc =>
      match acc with
      | [] => [[c]]
      | g :: gs => if c = sep then [] :: g :: gs else (c :: g) :: gs)
    [[]]

/-- JS `s.split('/')`. -/
def splitSlash (s : String) : List String :=
  (splitOnChar '/' s.data).map (fun g => ⟨g⟩)

/-- JS `parts.join('/')`. -/
def joinSlash : List String → String
  | [] => ""
  | [s] => s
  | s :: rest => s ++ "/" ++ joinSlash rest

/-- The regex test `/\/$/` on an entry name (src/install.js line 194). -/
def endsWithSlash (s : String) : Bool :=
  s.data.getLast? = some '/'

/-- Model of `path.dirname` for '/'-separated paths: everything before the last
separator, `"."` when there is none. -/
def dirName (p : String) : String :=
  if (splitSlash p).length ≤ 1 then "." else joinSlash (splitSlash p).dropLast

/-- src/install.js line 193: `entry.fileName.split('/').slice(1).join('/')`,
removing the archive's synthetic top-level directory. -/
def stripTopLevel (name : String) : String :=
  joinSlash ((splitSlash name).drop 1)

/-- Per-entry I/O outcome oracle for `extractZip`: `ok`, a failure of
`zipfile.openReadStream` (delivered as the callback's `err`), or an
`error` event on the entry's read or write stream. -/
inductive ZOutcome
  | ok
  | openError (e : String)
  | streamError (e : String)
deriving DecidableEq, Repr

/-- A zip archive entry: its name (directory entries end in '/') and
the I/O outcome processing it would have. -/
structure ZEntry where
  fileName : String
  outcome : ZOutcome
deriving DecidableEq, Repr

/-- How the `extractZip` promise run ends: `resolved` (the `end`
event), `rejected` (an explicit `reject(err)`), or `crashed` — an
`error` event on a read/write stream, for which src/install.js installs
no handler, so node raises it as an uncaught exception and the process
dies with a nonzero status. -/
inductive ZipResult
  | resolved
  | rejected (e : String)
  | crashed (e : String)
deriving DecidableEq, Repr

/-- Observable effects of a zip extraction: how it ended, which entries
were fully processed (in order), every `mkdirp.sync` argument, and
every output file written. -/
structure ZipRun where
  result : ZipResult
  processed : List String
  mkdirpCalls : List String
  filesWritten : List String
deriving DecidableEq, Repr

/-- The lazy entry loop of `extractZip` (src/install.js lines 192-218).
Directory entries (name ending '/') get `mkdirp.sync(join(outputDir,
entryPath))` and the next entry is requested.  File entries open a read
stream: a callback error rejects the promise and never requests another
entry; a stream error crashes the process (no further entries); on
success the parent directory is created, the file written, and the next
entry requested.  The `end` event resolves. -/
def extractZipEntries (outputDir : String) : List ZEntry → ZipRun
  | [] => ⟨ZipResult.resolved, [], [], []⟩
  | e :: rest =>
    if endsWithSlash e.fileName then
      { result := (extractZipEntries outputDir rest).result
        processed := e.fileName :: (extractZipEntries outputDir rest).processed
        mkdirpCalls :=
          pathJoin outputDir (stripTopLevel e.fileName) ::
            (extractZipEntries outputDir rest).mkdirpCalls
        filesWritten := (extractZipEntries outputDir rest).filesWritten }
    else
      match e.outcome with
      | ZOutcome.openError err => ⟨ZipResult.rejected err, [], [], []⟩
      | ZOutcome.streamError err =>
        ⟨ZipResult.crashed err, [],
          [dirName (pathJoin outputDir (stripTopLevel e.fileName))], []⟩
      | ZOutcome.ok =>
        { result := (extractZipEntries outputDir rest).result
          processed := e.fileName :: (extractZipEntries outputDir rest).processed
          mkdirpCalls :=
            dirName (pathJoin outputDir (stripTopLevel e.fileName)) ::
              (extractZipEntries outputDir rest).mkdirpCalls
          filesWritten :=
            pathJoin outputDir (stripTopLevel e.fileName) ::
              (extractZipEntries outputDir rest).filesWritten }

/-- Whether processing this entry fails: only file entries perform the
fallible open/read/write. -/
def zEntryFails (e : ZEntry) : Bool :=
  !(endsWithSlash e.fileName) &&
    (match e.outcome with
     | ZOutcome.ok => false
     | ZOutcome.openError _ => true
     | ZOutcome.streamError _ => true)

/-- Observable events of one installer run, in program order.  The
four request constructors distinguish the four `downloadFile` call
sites of src/install.js (ffmpeg at 339/367, its darwin-only docs at
380-381, ffprobe at 394, its docs at 408-409). -/
inductive Event
  | exitWith (code : Nat)
  | requestFFmpeg (url : String)
  | extractArchive (ext : String)
  | installFFmpeg
  | requestFFmpegDoc (url : String)
  | requestFFprobe (url : String)
  | installFFprobe
  | requestFFprobeDoc (url : String)
  | cleanup
  | warn
deriving DecidableEq, Repr

/-- Configuration of one installer run: the resolved environment
(platform, arch and the two env-overridable strings of src/install.js
lines 274-276), whether each final binary already exists as a regular
file, and the success of each fallible I/O step in the promise chain.
Stat errors other than ENOENT are outside the model (they exit 1 before
anything else happens). -/
structure RunCfg where
  platform : String
  arch : String
  release : String
  baseUrl : String
  ffmpegExists : Bool
  ffprobeExists : Bool
  downloadFFmpegOk : Bool
  extractOk : Bool
  installFFmpegOk : Bool
  ffmpegReadmeOk : Bool
  ffmpegLicenseOk : Bool
  downloadFFprobeOk : Bool
  chmodFFprobeOk : Bool
  ffprobeReadmeOk : Bool
  ffprobeLicenseOk : Bool
  cleanupOk : Bool
deriving DecidableEq, Repr

/-- A best-effort documentation fetch: the request is issued and a
failure is caught by `.catch(warnWith(...))` (src/install.js lines
380-381 and 408-409), producing a warning instead of propagating. -/
def docFetch (mk : String → Event) (url : String) (ok : Bool) : List Event :=
  mk url :: (if ok then [] else [Event.warn])

/-- The ffprobe half of the chain, src/install.js lines 393-424: the
download (line 394), the non-win32 chmod (fatal via the final `.catch`
on failure), the doc fetches (best-effort), then the cleanup `.then`
whose own failure is caught locally and only warned about, and the
natural exit 0 of the drained event loop. -/
def probePhase (cfg : RunCfg) (plan : Plan) : List Event :=
  Event.requestFFprobe plan.ffprobeUrl ::
    (if cfg.downloadFFprobeOk = false then [Event.exitWith 1]
     else if cfg.platform ≠ "win32" ∧ cfg.chmodFFprobeOk = false then [Event.exitWith 1]
     else
       Event.installFFprobe ::
         (docFetch Event.requestFFprobeDoc
            (cfg.baseUrl ++ cfg.release ++ "/" ++ plan.originalPlatformName ++ ".README")
            cfg.ffprobeReadmeOk ++
          docFetch Event.requestFFprobeDoc
            (cfg.baseUrl ++ cfg.release ++ "/" ++ plan.originalPlatformName ++ ".LICENSE")
            cfg.ffprobeLicenseOk ++
          Event.cleanup ::
            ((if cfg.cleanupOk then ([] : List Event) else [Event.warn]) ++
              [Event.exitWith 0])))

/-- The ffmpeg half of the chain, src/install.js lines 334-390.  A
rejection anywhere in `ffmpegPromise` hits the `.catch` at line 387 and
exits 1 (skipping everything else, cleanup included).  On the archive
branch: download, extract, copy+chmod, then the ffprobe phase.  On the
darwin branch: download, chmod, then the best-effort doc fetches, then
the ffprobe phase. -/
def ffmpegPhase (cfg : RunCfg) (plan : Plan) : List Event :=
  Event.requestFFmpeg plan.ffmpegUrl ::
    (if cfg.downloadFFmpegOk = false then [Event.exitWith 1]
     else
       match plan.ffmpegArchive with
       | some ext =>
         Event.extractArchive ext ::
           (if cfg.extractOk = false then [Event.exitWith 1]
            else if cfg.installFFmpegOk = false then [Event.exitWith 1]
            else Event.installFFmpeg :: probePhase cfg plan)
       | none =>
         if cfg.installFFmpegOk = false then [Event.exitWith 1]
         else
           Event.installFFmpeg ::
             (docFetch Event.requestFFmpegDoc
                (cfg.baseUrl ++ cfg.release ++ "/" ++ plan.originalPlatformName ++ ".README")
                cfg.ffmpegReadmeOk ++
              docFetch Event.requestFFmpegDoc
                (cfg.baseUrl ++ cfg.release ++ "/" ++ plan.originalPlatformName ++ ".LICENSE")
                cfg.ffmpegLicenseOk ++
              probePhase cfg plan))

/-- One whole installer run as its event trace.  src/install.js lines
31-40: when the support matrix yielded both paths (they are non-null
exactly when `archSupported`) and both stat as regular files, the
script prints and exits 0 before any other work.  Otherwise the plan is
resolved (line 304 exits 1 on an unknown platform before any URL is
built or request made) and the promise chain runs. -/
def runInstaller (cfg : RunCfg) : List Event :=
  if archSupported cfg.platform cfg.arch = true ∧
      cfg.ffmpegExists = true ∧ cfg.ffprobeExists = true then
    [Event.exitWith 0]
  else
    match buildPlan cfg.platform cfg.arch cfg.release cfg.baseUrl with
    | none => [Event.exitWith 1]
    | some plan => ffmpegPhase cfg plan

/-- Whether an event is a network request (any `downloadFile` call). -/
def isNetworkRequest : Event → Bool
  | Event.requestFFmpeg _ => true
  | Event.requestFFmpegDoc _ => true
  | Event.requestFFprobe _ => true
  | Event.requestFFprobeDoc _ => true
  | _ => false

/-- The network requests a trace performs, in order. -/
def networkRequests (tr : List Event) : List Event :=
  tr.filter isNetworkRequest

/-- Concrete fixture: the plan the installer builds for linux/x64 with
the default release tag and base URL. -/
def planLinuxX64 : Plan :=
  { originalPlatformName := "linux-x64"
    ffmpegUrl := ffmpegCustomBaseUrl ++ "/ffmpeg-master-latest-linux64-nonfree.tar.xz"
    ffmpegSource := Source.custom
    ffmpegArchive := some "tar.xz"
    ffmpegDirectToFinalPath := false
    ffprobeUrl := defaultBaseUrl ++ defaultRelease ++ "/ffprobe-linux-x64"
    ffprobeSource := Source.original
    ffprobeArchive := none }

/-- Concrete fixture: a run configuration with every I/O step set to
succeed and no pre-existing binaries. -/
def cfgAllOk (platform arch : String) : RunCfg :=
  { platform := platform
    arch := arch
    release := defaultRelease
    baseUrl := defaultBaseUrl
    ffmpegExists := false
    ffprobeExists := false
    downloadFFmpegOk := true
    extractOk := true
    installFFmpegOk := true
    ffmpegReadmeOk := true
    ffmpegLicenseOk := true
    downloadFFprobeOk := true
    chmodFFprobeOk := true
    ffprobeReadmeOk := true
    ffprobeLicenseOk := true
    cleanupOk := true }

/-- Helper: `getOriginalPlatformName` succeeds only on the three
recognized platforms. -/
theorem getOriginalPlatformName_platforms (p a n : String)
    (h : getOriginalPlatformName p a = some n) :
    p = "win32" ∨ p = "darwin" ∨ p = "linux" := by
  unfold getOriginalPlatformName at h
  split at h <;> simp_all

/-- Helper: `getOriginalPlatformName` is the fatal branch on any other
platform. -/
theorem getOriginalPlatformName_none (p a : String)
    (h1 : p ≠ "win32") (h2 : p ≠ "darwin") (h3 : p ≠ "linux") :
    getOriginalPlatformName p a = none := by
  unfold getOriginalPlatformName
  split <;> simp_all

/-- C10: on each platform for which download URLs are constructed
(win32, darwin, linux), every architecture other than arm64 is mapped
to the x64 naming token of both distribution sources, so the non-arm64
non-x64 architectures the support matrix lists (linux/ia32, linux/arm,
win32/ia32) are served x64 binaries. -/
theorem C10_nonarm64_to_x64 (a : String) (h : a ≠ "arm64") :
    getOriginalPlatformName "win32" a = some "win32-x64" ∧
    getOriginalPlatformName "darwin" a = some "darwin-x64" ∧
    getOriginalPlatformName "linux" a = some "linux-x64" ∧
    getFFmpegCustomPlatformName "win32" a = some "win64" ∧
    getFFmpegCustomPlatformName "linux" a = some "linux64" ∧
    archSupported "linux" "ia32" = true ∧
    archSupported "linux" "arm" = true ∧
    archSupported "win32" "ia32" = true := by
  refine ⟨?_, ?_, ?_, ?_, ?_, by decide, by decide, by decide⟩ <;>
    simp [getOriginalPlatformName, getFFmpegCustomPlatformName, h]

/-- C10 witness: instantiated at the matrix-listed architecture ia32. -/
theorem C10_witness :
    ("ia32" : String) ≠ "arm64" ∧
    (getOriginalPlatformName "win32" "ia32" = some "win32-x64" ∧
     getOriginalPlatformName "darwin" "ia32" = some "darwin-x64" ∧
     getOriginalPlatformName "linux" "ia32" = some "linux-x64" ∧
     getFFmpegCustomPlatformName "win32" "ia32" = some "win64" ∧
     getFFmpegCustomPlatformName "linux" "ia32" = some "linux64" ∧
     archSupported "linux" "ia32" = true ∧
     archSupported "linux" "arm" = true ∧
     archSupported "win32" "ia32" = true) :=
  ⟨by decide, C10_nonarm64_to_x64 "ia32" (by decide)⟩

/-- C2: whenever a plan is built, ffprobe resolves to the original
source with a direct payload (no archive); ffmpeg resolves to the
original source with no extraction exactly on darwin (where it also
downloads straight to the final path), and otherwise to the custom
source with an archive: zip on win32, tar.xz on linux. -/
theorem C2_source_selection (p a r b : String) (plan : Plan)
    (h : buildPlan p a r b = some plan) :
    plan.ffprobeSource = Source.original ∧
    plan.ffprobeArchive = none ∧
    ((plan.ffmpegSource = Source.original ∧ plan.ffmpegArchive = none ∧
        plan.ffmpegDirectToFinalPath = true) ↔ p = "darwin") ∧
    (p ≠ "darwin" →
      plan.ffmpegSource = Source.custom ∧ plan.ffmpegDirectToFinalPath = false ∧
        plan.ffmpegArchive = some (if p = "win32" then "zip" else "tar.xz")) ∧
    (p = "win32" → plan.ffmpegArchive = some "zip") ∧
    (p = "linux" → plan.ffmpegArchive = some "tar.xz") := by
  unfold buildPlan at h
  split at h
  · exact absurd h (by simp)
  · split at h
    · rename_i hname hdar
      injection h with h
      subst h
      subst hdar
      refine ⟨rfl, rfl, by simp, by simp, by simp, by simp⟩
    · rename_i hname hdar
      split at h
      · exact absurd h (by simp)
      · rename_i hcustom
        injection h with h
        subst h
        have hwl : p = "win32" ∨ p = "linux" := by
          rcases getOriginalPlatformName_platforms p a _ hname with h1 | h1 | h1
          · exact Or.inl h1
          · exact absurd h1 hdar
          · exact Or.inr h1
        refine ⟨rfl, rfl, by simp [hdar], fun _ => ⟨rfl, rfl, rfl⟩, ?_, ?_⟩
        · intro hw; simp [hw]
        · intro hl
          subst hl
          simp

/-- C2 witness: at linux/x64 the built plan is `planLinuxX64`, whose
ffmpeg archive is the tar.xz of the custom source. -/
theorem C2_witness :
    buildPlan "linux" "x64" defaultRelease defaultBaseUrl = some planLinuxX64 ∧
    planLinuxX64.ffmpegArchive = some "tar.xz" :=
  ⟨by decide,
   (C2_source_selection "linux" "x64" defaultRelease defaultBaseUrl planLinuxX64
      (by decide)).2.2.2.2.2 rfl⟩

/-- C6 counterexample: both processes launch, the xz decompressor exits
with the nonzero code 1, the tar extractor exits 0 — and the extraction
nevertheless succeeds, because no handler ever observes the xz exit
code.  The claim says a nonzero exit code from either process fails the
extraction. -/
theorem C6_counterexample :
    extractTarXz ⟨none, none, 1, 0⟩ = Except.ok () ∧ (1 : Int) ≠ 0 :=
  ⟨rfl, by decide⟩

/-- C6 (amended): with both processes launched, the extraction succeeds
iff the tar extractor exits 0 — the xz decompressor's exit code is
never observed; a nonzero tar exit is surfaced naming the tar process
and its code, and a launch error from either process fails the
extraction with that process's own error. -/
theorem C6_amended_tar_exit (p : TarXzProcs) :
    (p.xzSpawnError = none → p.tarSpawnError = none →
      (extractTarXz p = Except.ok () ↔ p.tarExitCode = 0)) ∧
    (p.xzSpawnError = none → p.tarSpawnError = none → p.tarExitCode ≠ 0 →
      extractTarXz p =
        Except.error ("tar process exited with code " ++ toString p.tarExitCode)) ∧
    (∀ e, p.xzSpawnError = some e → extractTarXz p = Except.error e) ∧
    (∀ e, p.xzSpawnError = none → p.tarSpawnError = some e →
      extractTarXz p = Except.error e) := by
  obtain ⟨xe, te, xc, tc⟩ := p
  refine ⟨?_, ?_, ?_, ?_⟩
  · intro hx ht
    subst hx; subst ht
    by_cases h : tc = 0 <;> simp [extractTarXz, h]
  · intro hx ht hc
    subst hx; subst ht
    simp [extractTarXz, hc]
  · intro e hx
    subst hx
    simp [extractTarXz]
  · intro e hx ht
    subst hx; subst ht
    simp [extractTarXz]

/-- C6 witness: tar exiting 3 (xz exit 7 unobserved) fails the
extraction with the message naming the tar process. -/
theorem C6_witness :
    ((3 : Int) ≠ 0) ∧
    extractTarXz ⟨none, none, 7, 3⟩ =
      Except.error ("tar process exited with code " ++ toString (3 : Int)) :=
  ⟨by decide, (C6_amended_tar_exit ⟨none, none, 7, 3⟩).2.1 rfl rfl (by decide)⟩

/-- Helper: the object-building fold keeps a list whose keys are
pairwise distinct unchanged (generalized over the accumulator). -/
theorem foldl_insertParam_of_pairwise (ps : List (String × String)) :
    ∀ acc : List (String × String),
      (∀ p ∈ ps, ∀ q ∈ acc, q.1 ≠ p.1) →
      ps.Pairwise (fun p q => p.1 ≠ q.1) →
      ps.foldl insertParam acc = acc ++ ps := by
  induction ps with
  | nil => intro acc _ _; simp
  | cons p ps ih =>
    intro acc hacc hpw
    have hnot : acc.any (fun q => q.1 = p.1) = false := by
      simp only [List.any_eq_false]
      intro q hq
      simpa using hacc p (List.mem_cons_self _ _) q hq
    have hins : insertParam acc p = acc ++ [p] := by
      unfold insertParam
      rw [hnot]
      simp
    rw [List.foldl_cons, hins]
    rw [ih (acc ++ [p]) ?_ (List.Pairwise.of_cons hpw)]
    · simp
    · intro r hr q hq
      rcases List.mem_append.mp hq with hq | hq
      · exact hacc r (List.mem_cons_of_mem _ hr) q hq
      · have : q = p := by simpa using hq
        subst this
        exact (List.rel_of_pairwise_cons hpw hr).symm ∘ Eq.symm

/-- Helper: collapsing a duplicate-free parameter list is the
identity. -/
theorem collapseParams_of_pairwise (ps : List (String × String))
    (h : ps.Pairwise (fun p q => p.1 ≠ q.1)) :
    collapseParams ps = ps := by
  unfold collapseParams
  rw [foldl_insertParam_of_pairwise ps [] (by simp) h]
  simp

/-- Helper: inserting into a numerically sorted list is a permutation
of consing. -/
theorem insertByIndex_perm (p : String × String) (l : List (String × String)) :
    List.Perm (insertByIndex p l) (p :: l) := by
  induction l with
  | nil => exact List.Perm.refl _
  | cons q qs ih =>
    unfold insertByIndex
    by_cases h : decDigitsToNat p.1.data < decDigitsToNat q.1.data
    · rw [if_pos h]
    · rw [if_neg h]
      exact (List.Perm.cons q ih).trans (List.Perm.swap p q qs)

/-- Helper: the numeric-key sort permutes its input. -/
theorem sortByNumericKey_perm (l : List (String × String)) :
    List.Perm (sortByNumericKey l) l := by
  induction l with
  | nil => exact List.Perm.refl _
  | cons p ps ih =>
    simp only [sortByNumericKey]
    exact (insertByIndex_perm p _).trans (List.Perm.cons p ih)

/-- Helper: enumeration-order rearrangement is a permutation — it moves
parameters but never adds or drops one. -/
theorem jsObjectOrder_perm (ps : List (String × String)) :
    List.Perm (jsObjectOrder ps) ps := by
  unfold jsObjectOrder
  refine List.Perm.trans (List.Perm.append_right _ (sortByNumericKey_perm _)) ?_
  exact List.filter_append_perm (fun q => isArrayIndex q.1) ps

/-- Helper: with no array-index key present, enumeration order is
first-occurrence order — the rearrangement is the identity. -/
theorem jsObjectOrder_eq_of_no_index (ps : List (String × String))
    (h : ∀ q ∈ ps, isArrayIndex q.1 = false) :
    jsObjectOrder ps = ps := by
  unfold jsObjectOrder
  have h1 : ps.filter (fun q => isArrayIndex q.1) = [] := by
    rw [List.filter_eq_nil_iff]
    intro q hq
    simp [h q hq]
  have h2 : ps.filter (fun q => !(isArrayIndex q.1)) = ps := by
    rw [List.filter_eq_self]
    intro q hq
    simp [h q hq]
  rw [h1, h2]
  rfl

/-- C3 counterexample: on a matching cloud-storage URL whose query
holds the duplicate key `a` twice (`a=1&a=2`) next to a signed-request
parameter, normalization does not retain all non-`X-Amz-` parameters:
the object-building reduce collapses the duplicates to `a=2` only. -/
theorem C3_counterexample :
    isS3Host "bucket.s3.amazonaws.com" = true ∧
    (normalizeS3Url
        ⟨"bucket.s3.amazonaws.com", "https://bucket.s3.amazonaws.com/obj",
          [("a", "1"), ("a", "2"), ("X-Amz-Signature", "sig")]⟩).params =
      [("a", "2")] ∧
    ([("a", "1"), ("a", "2"), ("X-Amz-Signature", "sig")].filter
        (fun p => !(isAmzKey p.1))) = [("a", "1"), ("a", "2")] ∧
    (normalizeS3Url
        ⟨"bucket.s3.amazonaws.com", "https://bucket.s3.amazonaws.com/obj",
          [("a", "1"), ("a", "2"), ("X-Amz-Signature", "sig")]⟩).params ≠
      [("a", "1"), ("a", "2")] := by
  refine ⟨by decide, by decide, by decide, by decide⟩

/-- C3 (amended): normalization is the identity (on the structural URL)
whenever the host does not match the cloud-storage suffix.  On a
matching host it keeps the non-`X-Amz-` parameters with duplicate keys
collapsed to their last value, serialized in JS object enumeration
order — so for pairwise-distinct retained keys it removes exactly the
`X-Amz-` parameters and retains all others as an order-insensitive set
(a permutation of the filtered list), and retains them in their
original order when none is an integer-like (array-index) key; an
integer-like key such as `0` is moved to the front (`b=1&0=z`
normalizes to `0=z&b=1`).  Two URLs that agree outside their `X-Amz-`
parameters normalize to the same result. -/
theorem C3_amended_normalizeS3Url :
    (∀ u : SUrl, isS3Host u.hostname = false → normalizeS3Url u = u) ∧
    (∀ u : SUrl, isS3Host u.hostname = true →
      (normalizeS3Url u).params =
        jsObjectOrder (collapseParams (u.params.filter (fun p => !(isAmzKey p.1))))) ∧
    (∀ u : SUrl, isS3Host u.hostname = true →
      (u.params.filter (fun p => !(isAmzKey p.1))).Pairwise (fun p q => p.1 ≠ q.1) →
      List.Perm (normalizeS3Url u).params
        (u.params.filter (fun p => !(isAmzKey p.1)))) ∧
    (∀ u : SUrl, isS3Host u.hostname = true →
      (u.params.filter (fun p => !(isAmzKey p.1))).Pairwise (fun p q => p.1 ≠ q.1) →
      (∀ q ∈ u.params.filter (fun p => !(isAmzKey p.1)), isArrayIndex q.1 = false) →
      (normalizeS3Url u).params = u.params.filter (fun p => !(isAmzKey p.1))) ∧
    (∀ u v : SUrl, u.hostname = v.hostname → u.base = v.base →
      isS3Host u.hostname = true →
      u.params.filter (fun p => !(isAmzKey p.1)) =
        v.params.filter (fun p => !(isAmzKey p.1)) →
      normalizeS3Url u = normalizeS3Url v) ∧
    (normalizeS3Url ⟨"h.s3.amazonaws.com", "https://h.s3.amazonaws.com/o",
        [("b", "1"), ("0", "z")]⟩).params = [("0", "z"), ("b", "1")] := by
  have hid : ∀ u : SUrl, isS3Host u.hostname = false → normalizeS3Url u = u := by
    intro u h
    unfold normalizeS3Url
    rw [if_pos h]
  have hpipe : ∀ u : SUrl, isS3Host u.hostname = true →
      (normalizeS3Url u).params =
        jsObjectOrder (collapseParams (u.params.filter (fun p => !(isAmzKey p.1)))) := by
    intro u h
    unfold normalizeS3Url
    rw [if_neg (by simp [h])]
  refine ⟨hid, hpipe, ?_, ?_, ?_, by decide⟩
  · intro u h hpw
    rw [hpipe u h, collapseParams_of_pairwise _ hpw]
    exact jsObjectOrder_perm _
  · intro u h hpw hni
    rw [hpipe u h, collapseParams_of_pairwise _ hpw,
      jsObjectOrder_eq_of_no_index _ hni]
  · intro u v hh hb hs hf
    obtain ⟨uh, ub, up⟩ := u
    obtain ⟨vh, vb, vp⟩ := v
    dsimp only at hh hb hs hf
    subst hh; subst hb
    unfold normalizeS3Url
    rw [if_neg (by simp [hs]), if_neg (by simp [hs])]
    dsimp only
    rw [hf]

/-- C3 witness: two signed URLs for the same object differing only in
signature and expiry parameters normalize identically. -/
theorem C3_witness :
    isS3Host "h.s3.amazonaws.com" = true ∧
    ([("actor_id", "0"), ("X-Amz-Signature", "aaa")].filter
        (fun p : String × String => !(isAmzKey p.1)) =
      [("actor_id", "0"), ("X-Amz-Signature", "bbb"), ("X-Amz-Expires", "300")].filter
        (fun p : String × String => !(isAmzKey p.1))) ∧
    normalizeS3Url ⟨"h.s3.amazonaws.com", "https://h.s3.amazonaws.com/obj",
        [("actor_id", "0"), ("X-Amz-Signature", "aaa")]⟩ =
      normalizeS3Url ⟨"h.s3.amazonaws.com", "https://h.s3.amazonaws.com/obj",
        [("actor_id", "0"), ("X-Amz-Signature", "bbb"), ("X-Amz-Expires", "300")]⟩ :=
  ⟨by decide, by decide,
   C3_amended_normalizeS3Url.2.2.2.2.1 _ _ rfl rfl (by decide) (by decide)⟩

/-- C4: when the support matrix lists the (platform, arch) combination
(so the module exports both final paths) and both final binaries
already exist as regular files, the run is exactly the exit-0
short-circuit: zero network requests and no further pipeline work. -/
theorem C4_idempotent_short_circuit (cfg : RunCfg)
    (hs : archSupported cfg.platform cfg.arch = true)
    (hm : cfg.ffmpegExists = true) (hp : cfg.ffprobeExists = true) :
    runInstaller cfg = [Event.exitWith 0] ∧
    networkRequests (runInstaller cfg) = [] := by
  unfold runInstaller
  rw [if_pos ⟨hs, hm, hp⟩]
  exact ⟨rfl, rfl⟩

/-- C4 witness: a linux/x64 run with both binaries present. -/
theorem C4_witness :
    archSupported "linux" "x64" = true ∧
    runInstaller { cfgAllOk "linux" "x64" with
        ffmpegExists := true, ffprobeExists := true } = [Event.exitWith 0] ∧
    networkRequests (runInstaller { cfgAllOk "linux" "x64" with
        ffmpegExists := true, ffprobeExists := true }) = [] :=
  ⟨by decide,
   (C4_idempotent_short_circuit _ (by decide) rfl rfl).1,
   (C4_idempotent_short_circuit _ (by decide) rfl rfl).2⟩

/-- Helper: unfolding equation for a directory entry. -/
theorem extractZipEntries_cons_dir (D : String) (e : ZEntry) (rest : List ZEntry)
    (h : endsWithSlash e.fileName = true) :
    extractZipEntries D (e :: rest) =
      { result := (extractZipEntries D rest).result
        processed := e.fileName :: (extractZipEntries D rest).processed
        mkdirpCalls :=
          pathJoin D (stripTopLevel e.fileName) :: (extractZipEntries D rest).mkdirpCalls
        filesWritten := (extractZipEntries D rest).filesWritten } := by
  simp only [extractZipEntries]
  rw [if_pos h]

/-- Helper: unfolding equation for a successfully written file entry. -/
theorem extractZipEntries_cons_ok (D : String) (e : ZEntry) (rest : List ZEntry)
    (h1 : endsWithSlash e.fileName = false) (h2 : e.outcome = ZOutcome.ok) :
    extractZipEntries D (e :: rest) =
      { result := (extractZipEntries D rest).result
        processed := e.fileName :: (extractZipEntries D rest).processed
        mkdirpCalls :=
          dirName (pathJoin D (stripTopLevel e.fileName)) ::
            (extractZipEntries D rest).mkdirpCalls
        filesWritten :=
          pathJoin D (stripTopLevel e.fileName) ::
            (extractZipEntries D rest).filesWritten } := by
  simp only [extractZipEntries]
  rw [if_neg (by simp [h1]), h2]

/-- Helper: unfolding equation for a file entry whose read stream fails
to open. -/
theorem extractZipEntries_cons_openError (D : String) (e : ZEntry)
    (rest : List ZEntry) (err : String)
    (h1 : endsWithSlash e.fileName = false) (h2 : e.outcome = ZOutcome.openError err) :
    extractZipEntries D (e :: rest) = ⟨ZipResult.rejected err, [], [], []⟩ := by
  simp only [extractZipEntries]
  rw [if_neg (by simp [h1]), h2]

/-- Helper: unfolding equation for a file entry whose read or write
stream errors. -/
theorem extractZipEntries_cons_streamError (D : String) (e : ZEntry)
    (rest : List ZEntry) (err : String)
    (h1 : endsWithSlash e.fileName = false) (h2 : e.outcome = ZOutcome.streamError err) :
    extractZipEntries D (e :: rest) =
      ⟨ZipResult.crashed err, [],
        [dirName (pathJoin D (stripTopLevel e.fileName))], []⟩ := by
  simp only [extractZipEntries]
  rw [if_neg (by simp [h1]), h2]

/-- Helper: a non-failing entry is a directory entry or an ok file
entry. -/
theorem zEntry_not_fails (p : ZEntry) (hp : zEntryFails p = false) :
    endsWithSlash p.fileName = true ∨
      (endsWithSlash p.fileName = false ∧ p.outcome = ZOutcome.ok) := by
  unfold zEntryFails at hp
  rw [Bool.and_eq_false_iff] at hp
  rcases hp with hp | hp
  · rw [Bool.not_eq_false'] at hp
    exact Or.inl hp
  · cases hd : endsWithSlash p.fileName
    · refine Or.inr ⟨rfl, ?_⟩
      cases ho : p.outcome with
      | ok => rfl
      | openError err => rw [ho] at hp; exact absurd hp (by simp)
      | streamError err => rw [ho] at hp; exact absurd hp (by simp)
    · exact Or.inl rfl

/-- C7: a read or write error on any file entry makes the whole zip
extraction fail (a rejected promise for an `openReadStream` error, a
process-killing uncaught stream exception otherwise — never a resolve),
and the entries after the failing one are never processed: the
processed list stops strictly before the failing entry. -/
theorem C7_zip_entry_error_aborts (D : String) (pre : List ZEntry) (e : ZEntry)
    (rest : List ZEntry)
    (hpre : ∀ x ∈ pre, zEntryFails x = false)
    (he : zEntryFails e = true) :
    (extractZipEntries D (pre ++ e :: rest)).result ≠ ZipResult.resolved ∧
    (extractZipEntries D (pre ++ e :: rest)).processed =
      pre.map (fun x => x.fileName) := by
  induction pre with
  | nil =>
    simp only [List.nil_append, List.map_nil]
    unfold zEntryFails at he
    rw [Bool.and_eq_true, Bool.not_eq_true'] at he
    obtain ⟨hdir, hout⟩ := he
    cases ho : e.outcome with
    | ok => rw [ho] at hout; exact absurd hout (by simp)
    | openError err =>
      rw [extractZipEntries_cons_openError D e rest err hdir ho]
      exact ⟨by simp, rfl⟩
    | streamError err =>
      rw [extractZipEntries_cons_streamError D e rest err hdir ho]
      exact ⟨by simp, rfl⟩
  | cons p pre ih =>
    have hp : zEntryFails p = false := hpre p (List.mem_cons_self _ _)
    have hrest : ∀ x ∈ pre, zEntryFails x = false := fun x hx =>
      hpre x (List.mem_cons_of_mem _ hx)
    obtain ⟨hres, hproc⟩ := ih hrest
    simp only [List.cons_append, List.map_cons]
    rcases zEntry_not_fails p hp with hdir | ⟨hdir, ho⟩
    · rw [extractZipEntries_cons_dir D p _ hdir]
      exact ⟨hres, by dsimp only; rw [hproc]⟩
    · rw [extractZipEntries_cons_ok D p _ hdir ho]
      exact ⟨hres, by dsimp only; rw [hproc]⟩

/-- C7 witness: with one good entry ahead of it, a failing read stream
on the second entry aborts the run with only the first entry
processed. -/
theorem C7_witness :
    (∀ x ∈ [ZEntry.mk "root/a.txt" ZOutcome.ok], zEntryFails x = false) ∧
    zEntryFails ⟨"root/b.txt", ZOutcome.openError "boom"⟩ = true ∧
    (extractZipEntries "D"
        ([ZEntry.mk "root/a.txt" ZOutcome.ok] ++
          ZEntry.mk "root/b.txt" (ZOutcome.openError "boom") ::
            [ZEntry.mk "root/c.txt" ZOutcome.ok])).result ≠ ZipResult.resolved ∧
    (extractZipEntries "D"
        ([ZEntry.mk "root/a.txt" ZOutcome.ok] ++
          ZEntry.mk "root/b.txt" (ZOutcome.openError "boom") ::
            [ZEntry.mk "root/c.txt" ZOutcome.ok])).processed =
      [ZEntry.mk "root/a.txt" ZOutcome.ok].map (fun x => x.fileName) :=
  ⟨by decide, by decide,
   (C7_zip_entry_error_aborts "D" [⟨"root/a.txt", ZOutcome.ok⟩]
      ⟨"root/b.txt", ZOutcome.openError "boom"⟩ [⟨"root/c.txt", ZOutcome.ok⟩]
      (by decide) (by decide)).1,
   (C7_zip_entry_error_aborts "D" [⟨"root/a.txt", ZOutcome.ok⟩]
      ⟨"root/b.txt", ZOutcome.openError "boom"⟩ [⟨"root/c.txt", ZOutcome.ok⟩]
      (by decide) (by decide)).2⟩

/-- C8: zip extraction strips exactly the first path segment of every
entry name.  Concretely, the claim's archive extracts to D/bin/tool.exe
and D/bin/readme.txt with the parent D/bin created; in general, on an
error-free archive every file entry is written to the join of the
output dir and its stripped name (with its parent dir created), and
every directory entry creates its stripped directory. -/
theorem C8_zip_strip_top_level :
    extractZipEntries "D"
        [⟨"root/bin/tool.exe", ZOutcome.ok⟩, ⟨"root/bin/readme.txt", ZOutcome.ok⟩] =
      ⟨ZipResult.resolved, ["root/bin/tool.exe", "root/bin/readme.txt"],
        ["D/bin", "D/bin"], ["D/bin/tool.exe", "D/bin/readme.txt"]⟩ ∧
    (∀ (D : String) (entries : List ZEntry),
      (∀ x ∈ entries, zEntryFails x = false) →
      (extractZipEntries D entries).result = ZipResult.resolved ∧
      (extractZipEntries D entries).filesWritten =
        (entries.filter (fun x => !(endsWithSlash x.fileName))).map
          (fun x => pathJoin D (stripTopLevel x.fileName)) ∧
      (extractZipEntries D entries).mkdirpCalls =
        entries.map (fun x =>
          if endsWithSlash x.fileName then pathJoin D (stripTopLevel x.fileName)
          else dirName (pathJoin D (stripTopLevel x.fileName)))) := by
  refine ⟨by decide, ?_⟩
  intro D entries h
  induction entries with
  | nil => exact ⟨rfl, rfl, rfl⟩
  | cons p rest ih =>
    have hp : zEntryFails p = false := h p (List.mem_cons_self _ _)
    obtain ⟨hres, hfiles, hmk⟩ := ih (fun x hx => h x (List.mem_cons_of_mem _ hx))
    rcases zEntry_not_fails p hp with hdir | ⟨hdir, ho⟩
    · rw [extractZipEntries_cons_dir D p _ hdir]
      refine ⟨hres, ?_, ?_⟩
      · dsimp only
        simp only [List.filter_cons, hdir, Bool.not_true]
        exact hfiles
      · dsimp only
        simp only [List.map_cons, hdir, if_true]
        exact congrArg _ hmk
    · rw [extractZipEntries_cons_ok D p _ hdir ho]
      refine ⟨hres, ?_, ?_⟩
      · dsimp only
        simp only [List.filter_cons, hdir, Bool.not_false, List.map_cons]
        exact congrArg _ hfiles
      · dsimp only
        simp only [List.map_cons, hdir, if_false]
        exact congrArg _ hmk

/-- C8 witness: the general part applied to an archive holding a
directory entry and a file entry. -/
theorem C8_witness :
    (∀ x ∈ [ZEntry.mk "root/sub/" ZOutcome.ok, ZEntry.mk "root/a.txt" ZOutcome.ok],
        zEntryFails x = false) ∧
    ((extractZipEntries "out"
        [⟨"root/sub/", ZOutcome.ok⟩, ⟨"root/a.txt", ZOutcome.ok⟩]).result =
          ZipResult.resolved ∧
     (extractZipEntries "out"
        [⟨"root/sub/", ZOutcome.ok⟩, ⟨"root/a.txt", ZOutcome.ok⟩]).filesWritten =
        ([ZEntry.mk "root/sub/" ZOutcome.ok, ZEntry.mk "root/a.txt" ZOutcome.ok].filter
            (fun x => !(endsWithSlash x.fileName))).map
          (fun x => pathJoin "out" (stripTopLevel x.fileName)) ∧
     (extractZipEntries "out"
        [⟨"root/sub/", ZOutcome.ok⟩, ⟨"root/a.txt", ZOutcome.ok⟩]).mkdirpCalls =
        [ZEntry.mk "root/sub/" ZOutcome.ok, ZEntry.mk "root/a.txt" ZOutcome.ok].map
          (fun x =>
            if endsWithSlash x.fileName then pathJoin "out" (stripTopLevel x.fileName)
            else dirName (pathJoin "out" (stripTopLevel x.fileName)))) :=
  ⟨by decide,
   C8_zip_strip_top_level.2 "out"
     [⟨"root/sub/", ZOutcome.ok⟩, ⟨"root/a.txt", ZOutcome.ok⟩] (by decide)⟩

/-- C1 counterexample: darwin/ia32 has no supported source mapping in
the support matrix (darwin lists only x64 and arm64), yet the installer
does not fail: the nulled paths are silently re-created by the fallback
block (src/install.js lines 256-268), the architecture is coerced to
darwin-x64, and the run starts with a network request and never takes
the fatal exit. -/
theorem C1_counterexample :
    archSupported "darwin" "ia32" = false ∧
    Event.exitWith 1 ∉ runInstaller (cfgAllOk "darwin" "ia32") ∧
    networkRequests (runInstaller (cfgAllOk "darwin" "ia32")) ≠ [] := by
  refine ⟨by decide, by decide, by decide⟩

/-- C1 (amended): a platform outside {win32, darwin, linux} makes zero
network requests — the run exits 1 at name resolution (before any URL
is built), except that the already-installed short-circuit can exit 0
first; but a recognized platform with an architecture the support
matrix does not list is NOT rejected: its very first event is already
the ffmpeg download request. -/
theorem C1_amended_platform_gate (cfg : RunCfg) :
    (cfg.platform ≠ "win32" → cfg.platform ≠ "darwin" → cfg.platform ≠ "linux" →
      networkRequests (runInstaller cfg) = [] ∧
      (¬(cfg.ffmpegExists = true ∧ cfg.ffprobeExists = true) →
        runInstaller cfg = [Event.exitWith 1])) ∧
    ((cfg.platform = "win32" ∨ cfg.platform = "darwin" ∨ cfg.platform = "linux") →
      archSupported cfg.platform cfg.arch = false →
      ∃ url rest, runInstaller cfg = Event.requestFFmpeg url :: rest) := by
  constructor
  · intro h1 h2 h3
    have hplan : buildPlan cfg.platform cfg.arch cfg.release cfg.baseUrl = none := by
      unfold buildPlan
      rw [getOriginalPlatformName_none _ _ h1 h2 h3]
    unfold runInstaller
    rw [hplan]
    constructor
    · by_cases hc : archSupported cfg.platform cfg.arch = true ∧
          cfg.ffmpegExists = true ∧ cfg.ffprobeExists = true
      · rw [if_pos hc]; rfl
      · rw [if_neg hc]; rfl
    · intro hne
      rw [if_neg (fun hc => hne ⟨hc.2.1, hc.2.2⟩)]
  · intro hrec hsup
    have hcond : ¬(archSupported cfg.platform cfg.arch = true ∧
        cfg.ffmpegExists = true ∧ cfg.ffprobeExists = true) := by
      intro hc
      rw [hsup] at hc
      exact absurd hc.1 (by simp)
    obtain ⟨plan, hplan⟩ :
        ∃ plan, buildPlan cfg.platform cfg.arch cfg.release cfg.baseUrl = some plan := by
      rcases hrec with h | h | h <;> rw [h] <;> exact ⟨_, rfl⟩
    unfold runInstaller
    rw [if_neg hcond, hplan]
    exact ⟨plan.ffmpegUrl, _, rfl⟩

/-- C1 witness: a run on the unrecognized platform sunos exits 1 with
zero network requests. -/
theorem C1_witness :
    networkRequests (runInstaller (cfgAllOk "sunos" "x64")) = [] ∧
    runInstaller (cfgAllOk "sunos" "x64") = [Event.exitWith 1] :=
  ⟨((C1_amended_platform_gate (cfgAllOk "sunos" "x64")).1
      (by decide) (by decide) (by decide)).1,
   ((C1_amended_platform_gate (cfgAllOk "sunos" "x64")).1
      (by decide) (by decide) (by decide)).2 (by decide)⟩

/-- Helper: a member of a doc fetch's event list is the request itself
or a warning. -/
theorem mem_docFetch (x : Event) (mk : String → Event) (url : String) (ok : Bool)
    (hx : x ∈ docFetch mk url ok) : x = mk url ∨ x = Event.warn := by
  unfold docFetch at hx
  rcases List.mem_cons.mp hx with hx | hx
  · exact Or.inl hx
  · cases ok
    · right
      simpa using hx
    · simp at hx

/-- Helper: shape of the ffprobe phase when its download fails. -/
theorem probePhase_dlFail (cfg : RunCfg) (plan : Plan)
    (h : cfg.downloadFFprobeOk = false) :
    probePhase cfg plan =
      [Event.requestFFprobe plan.ffprobeUrl, Event.exitWith 1] := by
  unfold probePhase
  rw [if_pos h]

/-- Helper: shape of the ffprobe phase when its chmod fails on a
non-win32 platform. -/
theorem probePhase_chmodFail (cfg : RunCfg) (plan : Plan)
    (h1 : cfg.downloadFFprobeOk = true)
    (h2 : cfg.platform ≠ "win32" ∧ cfg.chmodFFprobeOk = false) :
    probePhase cfg plan =
      [Event.requestFFprobe plan.ffprobeUrl, Event.exitWith 1] := by
  unfold probePhase
  rw [if_neg (by simp [h1]), if_pos h2]

/-- Helper: shape of the ffprobe phase when download and chmod
succeed. -/
theorem probePhase_okTrace (cfg : RunCfg) (plan : Plan)
    (h1 : cfg.downloadFFprobeOk = true)
    (h2 : ¬(cfg.platform ≠ "win32" ∧ cfg.chmodFFprobeOk = false)) :
    probePhase cfg plan =
      Event.requestFFprobe plan.ffprobeUrl :: Event.installFFprobe ::
        (docFetch Event.requestFFprobeDoc
            (cfg.baseUrl ++ cfg.release ++ "/" ++ plan.originalPlatformName ++ ".README")
            cfg.ffprobeReadmeOk ++
         docFetch Event.requestFFprobeDoc
            (cfg.baseUrl ++ cfg.release ++ "/" ++ plan.originalPlatformName ++ ".LICENSE")
            cfg.ffprobeLicenseOk ++
         Event.cleanup ::
           ((if cfg.cleanupOk then ([] : List Event) else [Event.warn]) ++
             [Event.exitWith 0])) := by
  unfold probePhase
  rw [if_neg (by simp [h1]), if_neg h2]

/-- Helper: shape of the ffmpeg phase when its download fails. -/
theorem ffmpegPhase_dlFail (cfg : RunCfg) (plan : Plan)
    (h : cfg.downloadFFmpegOk = false) :
    ffmpegPhase cfg plan =
      [Event.requestFFmpeg plan.ffmpegUrl, Event.exitWith 1] := by
  unfold ffmpegPhase
  rw [if_pos h]

/-- Helper: shape of the ffmpeg phase on the archive branch when
extraction fails. -/
theorem ffmpegPhase_extractFail (cfg : RunCfg) (plan : Plan) (ext : String)
    (h1 : cfg.downloadFFmpegOk = true) (h2 : plan.ffmpegArchive = some ext)
    (h3 : cfg.extractOk = false) :
    ffmpegPhase cfg plan =
      [Event.requestFFmpeg plan.ffmpegUrl, Event.extractArchive ext,
        Event.exitWith 1] := by
  unfold ffmpegPhase
  rw [if_neg (by simp [h1]), h2]
  dsimp only
  rw [if_pos h3]

/-- Helper: shape of the ffmpeg phase on the archive branch when the
copy/chmod install step fails. -/
theorem ffmpegPhase_installFailArchive (cfg : RunCfg) (plan : Plan) (ext : String)
    (h1 : cfg.downloadFFmpegOk = true) (h2 : plan.ffmpegArchive = some ext)
    (h3 : cfg.extractOk = true) (h4 : cfg.installFFmpegOk = false) :
    ffmpegPhase cfg plan =
      [Event.requestFFmpeg plan.ffmpegUrl, Event.extractArchive ext,
        Event.exitWith 1] := by
  unfold ffmpegPhase
  rw [if_neg (by simp [h1]), h2]
  dsimp only
  rw [if_neg (by simp [h3]), if_pos h4]

/-- Helper: shape of the ffmpeg phase on the fully successful archive
branch. -/
theorem ffmpegPhase_okArchive (cfg : RunCfg) (plan : Plan) (ext : String)
    (h1 : cfg.downloadFFmpegOk = true) (h2 : plan.ffmpegArchive = some ext)
    (h3 : cfg.extractOk = true) (h4 : cfg.installFFmpegOk = true) :
    ffmpegPhase cfg plan =
      Event.requestFFmpeg plan.ffmpegUrl :: Event.extractArchive ext ::
        Event.installFFmpeg :: probePhase cfg plan := by
  unfold ffmpegPhase
  rw [if_neg (by simp [h1]), h2]
  dsimp only
  rw [if_neg (by simp [h3]), if_neg (by simp [h4])]

/-- Helper: shape of the ffmpeg phase on the darwin branch when the
chmod install step fails. -/
theorem ffmpegPhase_installFailDarwin (cfg : RunCfg) (plan : Plan)
    (h1 : cfg.downloadFFmpegOk = true) (h2 : plan.ffmpegArchive = none)
    (h4 : cfg.installFFmpegOk = false) :
    ffmpegPhase cfg plan =
      [Event.requestFFmpeg plan.ffmpegUrl, Event.exitWith 1] := by
  unfold ffmpegPhase
  rw [if_neg (by simp [h1]), h2]
  dsimp only
  rw [if_pos h4]

/-- Helper: shape of the ffmpeg phase on the fully successful darwin
branch. -/
theorem ffmpegPhase_okDarwin (cfg : RunCfg) (plan : Plan)
    (h1 : cfg.downloadFFmpegOk = true) (h2 : plan.ffmpegArchive = none)
    (h4 : cfg.installFFmpegOk = true) :
    ffmpegPhase cfg plan =
      Event.requestFFmpeg plan.ffmpegUrl :: Event.installFFmpeg ::
        (docFetch Event.requestFFmpegDoc
            (cfg.baseUrl ++ cfg.release ++ "/" ++ plan.originalPlatformName ++ ".README")
            cfg.ffmpegReadmeOk ++
         docFetch Event.requestFFmpegDoc
            (cfg.baseUrl ++ cfg.release ++ "/" ++ plan.originalPlatformName ++ ".LICENSE")
            cfg.ffmpegLicenseOk ++
         probePhase cfg plan) := by
  unfold ffmpegPhase
  rw [if_neg (by simp [h1]), h2]
  dsimp only
  rw [if_neg (by simp [h4])]

/-- Helper: shape of a run taking the already-installed
short-circuit. -/
theorem runInstaller_short (cfg : RunCfg)
    (hc : archSupported cfg.platform cfg.arch = true ∧
      cfg.ffmpegExists = true ∧ cfg.ffprobeExists = true) :
    runInstaller cfg = [Event.exitWith 0] := by
  unfold runInstaller
  rw [if_pos hc]

/-- Helper: shape of a run that fails platform-name resolution. -/
theorem runInstaller_noPlan (cfg : RunCfg)
    (hc : ¬(archSupported cfg.platform cfg.arch = true ∧
      cfg.ffmpegExists = true ∧ cfg.ffprobeExists = true))
    (hp : buildPlan cfg.platform cfg.arch cfg.release cfg.baseUrl = none) :
    runInstaller cfg = [Event.exitWith 1] := by
  unfold runInstaller
  rw [if_neg hc, hp]

/-- Helper: shape of a run that enters the download pipeline. -/
theorem runInstaller_phase (cfg : RunCfg) (plan : Plan)
    (hc : ¬(archSupported cfg.platform cfg.arch = true ∧
      cfg.ffmpegExists = true ∧ cfg.ffprobeExists = true))
    (hp : buildPlan cfg.platform cfg.arch cfg.release cfg.baseUrl = some plan) :
    runInstaller cfg = ffmpegPhase cfg plan := by
  unfold runInstaller
  rw [if_neg hc, hp]

/-- Helper: if the ffprobe phase reaches its cleanup event, the phase
ends in exit 0 and contains no exit 1 (cleanup failure included, since
it only warns). -/
theorem cleanup_probePhase (cfg : RunCfg) (plan : Plan)
    (h : Event.cleanup ∈ probePhase cfg plan) :
    Event.exitWith 0 ∈ probePhase cfg plan ∧
    Event.exitWith 1 ∉ probePhase cfg plan := by
  by_cases h1 : cfg.downloadFFprobeOk = false
  · rw [probePhase_dlFail cfg plan h1] at h
    simp at h
  · have h1' : cfg.downloadFFprobeOk = true := by simpa using h1
    by_cases h2 : cfg.platform ≠ "win32" ∧ cfg.chmodFFprobeOk = false
    · rw [probePhase_chmodFail cfg plan h1' h2] at h
      simp at h
    · rw [probePhase_okTrace cfg plan h1' h2] at h ⊢
      constructor
      · refine List.mem_cons_of_mem _ (List.mem_cons_of_mem _ ?_)
        refine List.mem_append_right _ ?_
        refine List.mem_cons_of_mem _ ?_
        refine List.mem_append_right _ ?_
        exact List.mem_cons_self _ _
      · intro hx
        rcases List.mem_cons.mp hx with hx | hx
        · exact absurd hx (by simp)
        rcases List.mem_cons.mp hx with hx | hx
        · exact absurd hx (by simp)
        rcases List.mem_append.mp hx with hx | hx
        · rcases List.mem_append.mp hx with hx | hx
          · rcases mem_docFetch _ _ _ _ hx with hx | hx <;> exact absurd hx (by simp)
          · rcases mem_docFetch _ _ _ _ hx with hx | hx <;> exact absurd hx (by simp)
        rcases List.mem_cons.mp hx with hx | hx
        · exact absurd hx (by simp)
        rcases List.mem_append.mp hx with hx | hx
        · by_cases hC : cfg.cleanupOk = true
          · rw [if_pos hC] at hx
            simp at hx
          · rw [if_neg hC] at hx
            simp at hx
        · simp at hx

/-- Helper: if the ffmpeg phase reaches the cleanup event, the whole
phase ends in exit 0 and contains no exit 1. -/
theorem cleanup_ffmpegPhase (cfg : RunCfg) (plan : Plan)
    (h : Event.cleanup ∈ ffmpegPhase cfg plan) :
    Event.exitWith 0 ∈ ffmpegPhase cfg plan ∧
    Event.exitWith 1 ∉ ffmpegPhase cfg plan := by
  by_cases h1 : cfg.downloadFFmpegOk = false
  · rw [ffmpegPhase_dlFail cfg plan h1] at h
    simp at h
  · have h1' : cfg.downloadFFmpegOk = true := by simpa using h1
    cases harch : plan.ffmpegArchive with
    | some ext =>
      by_cases h2 : cfg.extractOk = false
      · rw [ffmpegPhase_extractFail cfg plan ext h1' harch h2] at h
        simp at h
      · have h2' : cfg.extractOk = true := by simpa using h2
        by_cases h3 : cfg.installFFmpegOk = false
        · rw [ffmpegPhase_installFailArchive cfg plan ext h1' harch h2' h3] at h
          simp at h
        · have h3' : cfg.installFFmpegOk = true := by simpa using h3
          rw [ffmpegPhase_okArchive cfg plan ext h1' harch h2' h3'] at h ⊢
          have hmem : Event.cleanup ∈ probePhase cfg plan := by
            rcases List.mem_cons.mp h with h | h
            · exact absurd h (by simp)
            rcases List.mem_cons.mp h with h | h
            · exact absurd h (by simp)
            rcases List.mem_cons.mp h with h | h
            · exact absurd h (by simp)
            exact h
          obtain ⟨g0, g1⟩ := cleanup_probePhase cfg plan hmem
          constructor
          · exact List.mem_cons_of_mem _
              (List.mem_cons_of_mem _ (List.mem_cons_of_mem _ g0))
          · intro hx
            rcases List.mem_cons.mp hx with hx | hx
            · exact absurd hx (by simp)
            rcases List.mem_cons.mp hx with hx | hx
            · exact absurd hx (by simp)
            rcases List.mem_cons.mp hx with hx | hx
            · exact absurd hx (by simp)
            exact g1 hx
    | none =>
      by_cases h3 : cfg.installFFmpegOk = false
      · rw [ffmpegPhase_installFailDarwin cfg plan h1' harch h3] at h
        simp at h
      · have h3' : cfg.installFFmpegOk = true := by simpa using h3
        rw [ffmpegPhase_okDarwin cfg plan h1' harch h3'] at h ⊢
        have hmem : Event.cleanup ∈ probePhase cfg plan := by
          rcases List.mem_cons.mp h with h | h
          · exact absurd h (by simp)
          rcases List.mem_cons.mp h with h | h
          · exact absurd h (by simp)
          rcases List.mem_append.mp h with h | h
          · rcases List.mem_append.mp h with h | h
            · rcases mem_docFetch _ _ _ _ h with h | h <;> exact absurd h (by simp)
            · rcases mem_docFetch _ _ _ _ h with h | h <;> exact absurd h (by simp)
          exact h
        obtain ⟨g0, g1⟩ := cleanup_probePhase cfg plan hmem
        constructor
        · refine List.mem_cons_of_mem _ (List.mem_cons_of_mem _ ?_)
          exact List.mem_append_right _ g0
        · intro hx
          rcases List.mem_cons.mp hx with hx | hx
          · exact absurd hx (by simp)
          rcases List.mem_cons.mp hx with hx | hx
          · exact absurd hx (by simp)
          rcases List.mem_append.mp hx with hx | hx
          · rcases List.mem_append.mp hx with hx | hx
            · rcases mem_docFetch _ _ _ _ hx with hx | hx <;> exact absurd hx (by simp)
            · rcases mem_docFetch _ _ _ _ hx with hx | hx <;> exact absurd hx (by simp)
          exact g1 hx

/-- C5 counterexample: a failed required step (the ffmpeg download)
exits 1 immediately — the cleanup step is never attempted, refuting
"cleanup is always attempted regardless of earlier failure". -/
theorem C5_counterexample :
    Event.exitWith 1 ∈
      runInstaller { cfgAllOk "linux" "x64" with downloadFFmpegOk := false } ∧
    Event.cleanup ∉
      runInstaller { cfgAllOk "linux" "x64" with downloadFFmpegOk := false } := by
  refine ⟨by decide, by decide⟩

/-- C5 (amended): cleanup is attempted only on runs in which every
required step succeeded; on any such run the process exits 0 and never
exits 1 — in particular a failure of cleanup itself is only a warning
and never causes a nonzero exit. -/
theorem C5_amended_cleanup (cfg : RunCfg)
    (h : Event.cleanup ∈ runInstaller cfg) :
    Event.exitWith 0 ∈ runInstaller cfg ∧
    Event.exitWith 1 ∉ runInstaller cfg := by
  by_cases hc : archSupported cfg.platform cfg.arch = true ∧
      cfg.ffmpegExists = true ∧ cfg.ffprobeExists = true
  · rw [runInstaller_short cfg hc] at h
    simp at h
  · cases hplan : buildPlan cfg.platform cfg.arch cfg.release cfg.baseUrl with
    | none =>
      rw [runInstaller_noPlan cfg hc hplan] at h
      simp at h
    | some plan =>
      rw [runInstaller_phase cfg plan hc hplan] at h ⊢
      exact cleanup_ffmpegPhase cfg plan h

/-- C5 witness: a fully successful run with a failing cleanup —
cleanup is attempted, only warns, and the run still exits 0. -/
theorem C5_witness :
    Event.cleanup ∈ runInstaller { cfgAllOk "linux" "x64" with cleanupOk := false } ∧
    (Event.exitWith 0 ∈ runInstaller { cfgAllOk "linux" "x64" with cleanupOk := false } ∧
     Event.exitWith 1 ∉ runInstaller { cfgAllOk "linux" "x64" with cleanupOk := false }) :=
  ⟨by decide, C5_amended_cleanup _ (by decide)⟩

/-- Helper: when a list starting with `a` (which holds no ffprobe
request) is split at an ffprobe request, the part before the split
extends `a`. -/
theorem decomp_before_probe {c post : List Event} {u : String} :
    ∀ (a pre : List Event), (∀ v, Event.requestFFprobe v ∉ a) →
      a ++ c = pre ++ Event.requestFFprobe u :: post →
      ∃ t, pre = a ++ t := by
  intro a
  induction a with
  | nil =>
    intro pre _ _
    exact ⟨pre, rfl⟩
  | cons x a ih =>
    intro pre hn h
    cases pre with
    | nil =>
      rw [List.nil_append, List.cons_append] at h
      have hx : x = Event.requestFFprobe u := (List.cons.inj h).1
      have : Event.requestFFprobe u ∈ x :: a := by
        rw [hx]
        exact List.mem_cons_self _ _
      exact absurd this (hn u)
    | cons y pre =>
      simp only [List.cons_append] at h
      obtain ⟨hxy, h2⟩ := List.cons.inj h
      obtain ⟨t, ht⟩ :=
        ih pre (fun v hv => hn v (List.mem_cons_of_mem _ hv)) h2
      refine ⟨t, ?_⟩
      rw [List.cons_append, ← hxy, ht]

/-- Helper: the head part of a split at an ffprobe request contains the
ffmpeg install event whenever the trace is a probe-free block that
contains it, followed by the ffprobe phase. -/
theorem install_in_split (a : List Event) (cfg : RunCfg) (plan : Plan)
    {pre post : List Event} {u : String}
    (hn : ∀ v, Event.requestFFprobe v ∉ a)
    (hi : Event.installFFmpeg ∈ a)
    (h : a ++ probePhase cfg plan = pre ++ Event.requestFFprobe u :: post) :
    Event.installFFmpeg ∈ pre := by
  obtain ⟨t, ht⟩ := decomp_before_probe a pre hn h
  rw [ht]
  exact List.mem_append_left t hi

/-- C9: whenever a run's trace performs the ffprobe download request,
the ffmpeg install step has already completed strictly before it —
the ffprobe acquisition is sequenced after the full ffmpeg
installation. -/
theorem C9_ffprobe_after_ffmpeg_install (cfg : RunCfg)
    (pre post : List Event) (u : String)
    (h : runInstaller cfg = pre ++ Event.requestFFprobe u :: post) :
    Event.installFFmpeg ∈ pre := by
  have hprobe : Event.requestFFprobe u ∈ pre ++ Event.requestFFprobe u :: post :=
    List.mem_append_right _ (List.mem_cons_self _ _)
  by_cases hc : archSupported cfg.platform cfg.arch = true ∧
      cfg.ffmpegExists = true ∧ cfg.ffprobeExists = true
  · rw [runInstaller_short cfg hc] at h
    rw [← h] at hprobe
    simp at hprobe
  · cases hplan : buildPlan cfg.platform cfg.arch cfg.release cfg.baseUrl with
    | none =>
      rw [runInstaller_noPlan cfg hc hplan] at h
      rw [← h] at hprobe
      simp at hprobe
    | some plan =>
      rw [runInstaller_phase cfg plan hc hplan] at h
      by_cases h1 : cfg.downloadFFmpegOk = false
      · rw [ffmpegPhase_dlFail cfg plan h1] at h
        rw [← h] at hprobe
        simp at hprobe
      · have h1' : cfg.downloadFFmpegOk = true := by simpa using h1
        cases harch : plan.ffmpegArchive with
        | some ext =>
          by_cases h2 : cfg.extractOk = false
          · rw [ffmpegPhase_extractFail cfg plan ext h1' harch h2] at h
            rw [← h] at hprobe
            simp at hprobe
          · have h2' : cfg.extractOk = true := by simpa using h2
            by_cases h3 : cfg.installFFmpegOk = false
            · rw [ffmpegPhase_installFailArchive cfg plan ext h1' harch h2' h3] at h
              rw [← h] at hprobe
              simp at hprobe
            · have h3' : cfg.installFFmpegOk = true := by simpa using h3
              rw [ffmpegPhase_okArchive cfg plan ext h1' harch h2' h3'] at h
              have h' : ([Event.requestFFmpeg plan.ffmpegUrl,
                  Event.extractArchive ext, Event.installFFmpeg] ++
                    probePhase cfg plan) =
                  pre ++ Event.requestFFprobe u :: post := by
                simpa using h
              refine install_in_split _ cfg plan ?_ (by simp) h'
              intro v
              simp
        | none =>
          by_cases h3 : cfg.installFFmpegOk = false
          · rw [ffmpegPhase_installFailDarwin cfg plan h1' harch h3] at h
            rw [← h] at hprobe
            simp at hprobe
          · have h3' : cfg.installFFmpegOk = true := by simpa using h3
            rw [ffmpegPhase_okDarwin cfg plan h1' harch h3'] at h
            have h' : ((Event.requestFFmpeg plan.ffmpegUrl ::
                Event.installFFmpeg ::
                  (docFetch Event.requestFFmpegDoc
                      (cfg.baseUrl ++ cfg.release ++ "/" ++
                        plan.originalPlatformName ++ ".README")
                      cfg.ffmpegReadmeOk ++
                   docFetch Event.requestFFmpegDoc
                      (cfg.baseUrl ++ cfg.release ++ "/" ++
                        plan.originalPlatformName ++ ".LICENSE")
                      cfg.ffmpegLicenseOk)) ++ probePhase cfg plan) =
                pre ++ Event.requestFFprobe u :: post := by
              simpa [List.append_assoc] using h
            refine install_in_split _ cfg plan ?_ (by simp) h'
            intro v hv
            rcases List.mem_cons.mp hv with hv | hv
            · exact absurd hv (by simp)
            rcases List.mem_cons.mp hv with hv | hv
            · exact absurd hv (by simp)
            rcases List.mem_append.mp hv with hv | hv
            · rcases mem_docFetch _ _ _ _ hv with hv | hv <;> exact absurd hv (by simp)
            · rcases mem_docFetch _ _ _ _ hv with hv | hv <;> exact absurd hv (by simp)

/-- C9 witness: the full successful win32/x64 trace split at the
ffprobe request; the part before it contains the ffmpeg install. -/
theorem C9_witness :
    runInstaller (cfgAllOk "win32" "x64") =
      [Event.requestFFmpeg
          "https://github.com/BnqDzj/FFmpeg-Builds-nonfree/releases/download/latest/ffmpeg-master-latest-win64-nonfree.zip",
        Event.extractArchive "zip", Event.installFFmpeg] ++
        Event.requestFFprobe
            "https://github.com/descriptinc/ffmpeg-ffprobe-static/releases/download/b4.4.0-rc.11/ffprobe-win32-x64" ::
          [Event.installFFprobe,
            Event.requestFFprobeDoc
              "https://github.com/descriptinc/ffmpeg-ffprobe-static/releases/download/b4.4.0-rc.11/win32-x64.README",
            Event.requestFFprobeDoc
              "https://github.com/descriptinc/ffmpeg-ffprobe-static/releases/download/b4.4.0-rc.11/win32-x64.LICENSE",
            Event.cleanup, Event.exitWith 0] ∧
    Event.installFFmpeg ∈
      [Event.requestFFmpeg
          "https://github.com/BnqDzj/FFmpeg-Builds-nonfree/releases/download/latest/ffmpeg-master-latest-win64-nonfree.zip",
        Event.extractArchive "zip", Event.installFFmpeg] :=
  ⟨by decide,
   C9_ffprobe_after_ffmpeg_install (cfgAllOk "win32" "x64")
     [Event.requestFFmpeg
         "https://github.com/BnqDzj/FFmpeg-Builds-nonfree/releases/download/latest/ffmpeg-master-latest-win64-nonfree.zip",
       Event.extractArchive "zip", Event.installFFmpeg]
     [Event.installFFprobe,
       Event.requestFFprobeDoc
         "https://github.com/descriptinc/ffmpeg-ffprobe-static/releases/download/b4.4.0-rc.11/win32-x64.README",
       Event.requestFFprobeDoc
         "https://github.com/descriptinc/ffmpeg-ffprobe-static/releases/download/b4.4.0-rc.11/win32-x64.LICENSE",
       Event.cleanup, Event.exitWith 0]
     "https://github.com/descriptinc/ffmpeg-ffprobe-static/releases/download/b4.4.0-rc.11/ffprobe-win32-x64"
     (by decide)⟩

end FFInstall
